import Mathlib

/-!
Verification of the cruxhash hashing library.

The definitions below are a shallow embedding of the library's current
variant (the one exporting `hashBigint` and `hashBytes`): the dispatcher
`hash`, the per-kind hash functions, the integer avalanche mixer `wang`
and the byte-stream mixer `murmur3`.  Machine arithmetic is modelled on
`Nat` with explicit reductions modulo `2 ^ 32` exactly where the
ECMAScript operators coerce (`>>> 0`, `ToInt32`/`ToUint32`, `Math.imul`).
Strings are modelled as lists of Unicode code points, byte buffers as
lists of byte values.
-/

namespace Cruxhash

/-- JS `ToUint32`: reduce a numeric value to its low 32 bits.  Every JS
bitwise operator (`^`, `|`, `<<`, `>>>`, `Math.imul`) coerces its
operands this way (up to the sign of the residue, which never affects
the residue itself), and `>>> 0` applies it to the result. -/
def u32 (n : Nat) : Nat := n % 2 ^ 32

/-- Murmur3 per-block scramble: `k1 = imul(k1, c1); k1 = rotl(k1, 15);
k1 = imul(k1, c2)` from the `murmur3` body. -/
def mixK (k : Nat) : Nat :=
  let k1 := u32 (k * 0xcc9e2d51)
  let k2 := u32 (k1 <<< 15) ||| (k1 >>> 17)
  u32 (k2 * 0x1b873593)

/-- Murmur3 accumulator update for one complete 4-byte block:
`h1 = h1 ^ k1; h1 = rotl(h1, 13); h1 = imul(h1, 5) + 0xe6546b64`. -/
def stepH (h k : Nat) : Nat :=
  let h1 := h ^^^ k
  let h2 := u32 (h1 <<< 13) ||| (h1 >>> 19)
  u32 (h2 * 5 + 0xe6546b64)

/-- The body loop plus tail `switch` of `murmur3`: complete 4-byte
little-endian blocks are folded through `stepH`/`mixK`; the trailing
0-3 bytes are accumulated most-significant-trailing-byte first
(`case 3` falls through `case 2` falls through `case 1`) and XORed in
without advancing the block state. -/
def murmurRounds : List Nat → Nat → Nat
  | b0 :: b1 :: b2 :: b3 :: rest, h =>
      murmurRounds rest (stepH h (mixK (b0 + b1 * 2 ^ 8 + b2 * 2 ^ 16 + b3 * 2 ^ 24)))
  | [b0, b1, b2], h => h ^^^ mixK (((b2 <<< 16) ^^^ (b1 <<< 8)) ^^^ b0)
  | [b0, b1], h => h ^^^ mixK ((b1 <<< 8) ^^^ b0)
  | [b0], h => h ^^^ mixK b0
  | [], h => h

/-- Murmur3 finalization: XOR with total length, then the 3-step fmix
avalanche (`h ^= h >>> 16; h = imul(h, 0x85ebca6b); h ^= h >>> 13;
h = imul(h, 0xc2b2ae35); h ^= h >>> 16`). -/
def fmix (h len : Nat) : Nat :=
  let h1 := h ^^^ u32 len
  let h2 := h1 ^^^ (h1 >>> 16)
  let h3 := u32 (h2 * 0x85ebca6b)
  let h4 := h3 ^^^ (h3 >>> 13)
  let h5 := u32 (h4 * 0xc2b2ae35)
  h5 ^^^ (h5 >>> 16)

/-- `murmur3(buffer, seed)`: the byte-stream mixer of the library. -/
def murmur3 (bytes : List Nat) (seed : Nat) : Nat :=
  fmix (murmurRounds bytes (u32 seed)) bytes.length

/-- Line `int = int ^ 61 ^ (int >>> 16)` of `wang`. -/
def wstep1 (x : Nat) : Nat := (x ^^^ 61) ^^^ (x >>> 16)

/-- Line `int = int + (int << 3)` of `wang` (the following bitwise
operator coerces the sum modulo `2 ^ 32`). -/
def wstep2 (x : Nat) : Nat := u32 (x + u32 (x <<< 3))

/-- Line `int = int ^ (int >>> 4)` of `wang`. -/
def wstep3 (x : Nat) : Nat := x ^^^ (x >>> 4)

/-- Line `int = Math.imul(int, 0x27d4eb2d)` of `wang`. -/
def wstep4 (x : Nat) : Nat := u32 (x * 0x27d4eb2d)

/-- Line `int = int ^ (int >>> 15)` of `wang`. -/
def wstep5 (x : Nat) : Nat := x ^^^ (x >>> 15)

/-- `wang(int, seed)`: Thomas Wang's 32-bit integer avalanche mixer as
implemented by the library, every right shift a logical (`>>>`) shift.
The first line `int = int ^ seed` coerces both operands to 32 bits. -/
def wang (int seed : Nat) : Nat :=
  u32 (wstep5 (wstep4 (wstep3 (wstep2 (wstep1 (u32 int ^^^ u32 seed))))))

/-- The UTF-8 encoding of one Unicode code point (what the library's
shared `TextEncoder` produces per code point). -/
def utf8Char (c : Nat) : List Nat :=
  if c < 0x80 then [c]
  else if c < 0x800 then [0xc0 ||| (c >>> 6), 0x80 ||| (c &&& 0x3f)]
  else if c < 0x10000 then
    [0xe0 ||| (c >>> 12), 0x80 ||| ((c >>> 6) &&& 0x3f), 0x80 ||| (c &&& 0x3f)]
  else
    [0xf0 ||| (c >>> 18), 0x80 ||| ((c >>> 12) &&& 0x3f),
      0x80 ||| ((c >>> 6) &&& 0x3f), 0x80 ||| (c &&& 0x3f)]

/-- `encode(str)`: UTF-8 encoding of a string, modelled on lists of
code points. -/
def encodeUtf8 (cps : List Nat) : List Nat := (cps.map utf8Char).flatten

/-- Modelled from the spec: `value.normalize('NFD')` is host
functionality (ECMAScript `String.prototype.normalize`), not code of
this repository.  Per the spec, NFD decomposes precomposed characters
into base character plus combining marks; for the code points exercised
here, U+00F1 (precomposed n with tilde) decomposes to U+006E U+0303,
and code points without a canonical decomposition map to themselves. -/
def nfdChar (c : Nat) : List Nat := if c = 0xf1 then [0x6e, 0x303] else [c]

/-- Modelled from the spec: NFD normalization of a whole string,
applied code point by code point. -/
def nfd (cps : List Nat) : List Nat := (cps.map nfdChar).flatten

/-- `hashString(value, seed)`: NFD-normalize, UTF-8 encode, murmur3. -/
def hashString (cps : List Nat) (seed : Nat) : Nat :=
  murmur3 (encodeUtf8 (nfd cps)) seed

/-- The default seed: every exported hash function declares
`seed = 0` as its default parameter. -/
def defaultSeed : Nat := 0

/-- `getSeed(str)`: hash the label with seed 0. -/
def getSeed (cps : List Nat) : Nat := hashString cps 0

/-- A JS `number` value as the library observes it: NaN, the two
infinities, negative zero, integer-valued finite doubles (by their
exact integer value) and non-integer finite doubles (by their 64-bit
IEEE-754 pattern). -/
inductive JSNumber where
  | nan
  | posInf
  | negInf
  | negZero
  | int (n : Int)
  | nonInt (bits : Nat)
deriving DecidableEq

/-- The guard `Number.isInteger(value) && value < 0xffffffff` of
`hashNumber`: false for NaN and both infinities (not integers), true
for `-0` (an integer below the bound), true for an integer-valued
double iff it is strictly below `0xffffffff` (no lower bound), false
for non-integer doubles. -/
def numIsFast : JSNumber → Bool
  | .negZero => true
  | .int n => decide (n < 4294967295)
  | _ => false

/-- The test `value === 0`, which is true for both `+0` and `-0`. -/
def numIsZero : JSNumber → Bool
  | .negZero => true
  | .int n => decide (n = 0)
  | _ => false

/-- The ToUint32 coercion `wang` applies to its numeric argument via
`int ^ seed`: the value's residue modulo `2 ^ 32`.  Only reachable for
integer-valued arguments. -/
def numToUint32 : JSNumber → Nat
  | .int n => (n % (2 ^ 32 : Int)).toNat
  | _ => 0

/-- Floor base-2 logarithm by bounded search (written structurally so
that it evaluates inside the kernel); correct for arguments below
`2 ^ 64`, which covers every double this development serializes. -/
def floorLog2 (m : Nat) : Nat :=
  (List.range 64).foldl (fun acc e => if 2 ^ e ≤ m then e else acc) 0

/-- The IEEE-754 binary64 pattern of an integer-valued double, exact
for magnitudes below `2 ^ 53` (the only inputs these theorems use).
This models what `view.setFloat64(0, value, true)` stores. -/
def f64bitsOfInt (n : Int) : Nat :=
  if n = 0 then 0
  else
    let s : Nat := if n < 0 then 2 ^ 63 else 0
    let m : Nat := n.natAbs
    let e : Nat := floorLog2 m
    s + (1023 + e) * 2 ^ 52 + (m * 2 ^ (52 - e) - 2 ^ 52)

/-- The 8 bytes of a 64-bit word in little-endian order, as an
8-byte `ArrayBuffer` written by `setFloat64(0, value, true)` reads. -/
def bytesLE8 (w : Nat) : List Nat :=
  [w % 2 ^ 8, (w >>> 8) % 2 ^ 8, (w >>> 16) % 2 ^ 8, (w >>> 24) % 2 ^ 8,
    (w >>> 32) % 2 ^ 8, (w >>> 40) % 2 ^ 8, (w >>> 48) % 2 ^ 8, (w >>> 56) % 2 ^ 8]

/-- The little-endian IEEE-754 binary64 serialization of a JS number,
as produced by `view.setFloat64(0, value, true)`: NaN stores the
canonical quiet-NaN pattern `0x7ff8000000000000`, the infinities their
standard patterns, and finite doubles their bit patterns. -/
def f64leBytes : JSNumber → List Nat
  | .nan => bytesLE8 0x7ff8000000000000
  | .posInf => bytesLE8 0x7ff0000000000000
  | .negInf => bytesLE8 0xfff0000000000000
  | .negZero => bytesLE8 (2 ^ 63)
  | .int n => bytesLE8 (f64bitsOfInt n)
  | .nonInt bits => bytesLE8 bits

/-- `hashNumber(value, seed)`: integer-valued doubles below
`0xffffffff` go to `wang` (with `-0` collapsed to `0` by the
`value === 0` ternary); every other number is serialized as its 8-byte
little-endian binary64 pattern and fed to `murmur3`. -/
def hashNumber (v : JSNumber) (seed : Nat) : Nat :=
  if numIsFast v then
    if numIsZero v then wang 0 seed else wang (numToUint32 v) seed
  else murmur3 (f64leBytes v) seed

def FALSE_KEY : Nat := 0x42108420
def TRUE_KEY : Nat := 0x42108421
def NULL_KEY : Nat := 0x42108422
def UNDEFINED_KEY : Nat := 0x42108423
def UNKNOWN_KEY : Nat := 0x42108424

/-- `hashBoolean(value, seed)`. -/
def hashBoolean (b : Bool) (seed : Nat) : Nat :=
  if b then TRUE_KEY ^^^ u32 seed else FALSE_KEY ^^^ u32 seed

/-- The 4 bytes of a 32-bit word in little-endian order: how the bytes
of one `Uint32Array` element appear in its backing buffer on a
little-endian host. -/
def bytesLE4 (w : Nat) : List Nat :=
  [w % 2 ^ 8, (w >>> 8) % 2 ^ 8, (w >>> 16) % 2 ^ 8, (w >>> 24) % 2 ^ 8]

/-- The backing buffer of a `Uint32Array` holding the given words. -/
def bytesOfU32 (ws : List Nat) : List Nat := (ws.map bytesLE4).flatten

/-- `TypedArray.prototype.sort` with no comparator: numeric ascending
order (unlike `Array.prototype.sort`, typed-array sort is numeric). -/
def sortU32 (l : List Nat) : List Nat := List.insertionSort (· ≤ ·) l

/-- A JS value as the library's dispatcher observes it: `undefined`,
`null`, booleans, numbers, strings, arrays (plain iterables), `Set`
instances, `Map` instances (lists of key-value entries in iteration
order) and plain objects (string-keyed fields in `Object.entries`
order).  The modelled values are plain data, so none of them carries a
`hashCode` method, an overridden `valueOf`, or an `ArrayBuffer`
view—`hashObject` falls through those probes to the iterable/entries
branches. -/
inductive JSVal where
  | undef
  | jsNull
  | bool (b : Bool)
  | num (n : JSNumber)
  | str (cps : List Nat)
  | arr (elems : List JSVal)
  | set (elems : List JSVal)
  | jsMap (entries : List (JSVal × JSVal))
  | obj (fields : List (List Nat × JSVal))

/-- `value.constructor.name` for arrays. -/
def arrayName : List Nat := [0x41, 0x72, 0x72, 0x61, 0x79]

/-- `value.constructor.name` for Set instances. -/
def setName : List Nat := [0x53, 0x65, 0x74]

/-- `value.constructor.name` for Map instances. -/
def mapName : List Nat := [0x4d, 0x61, 0x70]

/-- `value.constructor.name` for plain objects. -/
def objectName : List Nat := [0x4f, 0x62, 0x6a, 0x65, 0x63, 0x74]

mutual

/-- The dispatcher `hash(value, seed)` fused with `hashObject` for the
object categories: `undefined` and `null` return sentinel XOR seed;
booleans, numbers and strings delegate to their per-kind functions; for
arrays, sets, maps and plain objects, `hashObject` first folds
`value.constructor.name` into the seed via `murmur3`, then (none of the
modelled values having `hashCode`, a custom `valueOf`, or being an
`ArrayBuffer` or a view) hashes the per-element hash words: in iteration
order for arrays (`hashSequence`), sorted for sets (`hashValues`),
sorted per-entry hashes for maps (`hashEntries`), and sorted per-entry
hashes of `Object.entries(value)` for plain objects. -/
def hash : JSVal → Nat → Nat
  | .undef, seed => UNDEFINED_KEY ^^^ u32 seed
  | .jsNull, seed => NULL_KEY ^^^ u32 seed
  | .bool b, seed => hashBoolean b seed
  | .num n, seed => hashNumber n seed
  | .str cps, seed => hashString cps seed
  | .arr elems, seed =>
      let s1 := murmur3 (encodeUtf8 arrayName) seed
      murmur3 (bytesOfU32 (hashList elems s1)) s1
  | .set elems, seed =>
      let s1 := murmur3 (encodeUtf8 setName) seed
      murmur3 (bytesOfU32 (sortU32 (hashList elems s1))) s1
  | .jsMap entries, seed =>
      let s1 := murmur3 (encodeUtf8 mapName) seed
      murmur3 (bytesOfU32 (sortU32 (hashPairs entries s1))) s1
  | .obj fields, seed =>
      let s1 := murmur3 (encodeUtf8 objectName) seed
      murmur3 (bytesOfU32 (sortU32 (hashFields fields s1))) s1

/-- `Uint32Array.from(value, (element) => hash(element, seed))`. -/
def hashList : List JSVal → Nat → List Nat
  | [], _ => []
  | v :: vs, seed => hash v seed :: hashList vs seed

/-- The per-entry hashes of `hashEntries`: each `[key, value]` entry is
hashed as a 2-element sequence (`hashSequence(element, seed)`, i.e.
murmur3 over the buffer holding the two element hashes). -/
def hashPairs : List (JSVal × JSVal) → Nat → List Nat
  | [], _ => []
  | (k, v) :: es, seed =>
      murmur3 (bytesOfU32 [hash k seed, hash v seed]) seed :: hashPairs es seed

/-- The per-entry hashes for `hashEntries(Object.entries(value), seed)`:
entries of a plain object are `[key, value]` with a string key, so the
key hashes through `hashString`. -/
def hashFields : List (List Nat × JSVal) → Nat → List Nat
  | [], _ => []
  | (k, v) :: fs, seed =>
      murmur3 (bytesOfU32 [hashString k seed, hash v seed]) seed :: hashFields fs seed

end

/-- `hashSequence(value, seed)`: murmur3 over the backing buffer of the
`Uint32Array` of per-element hashes, in element order. -/
def hashSequence (l : List JSVal) (seed : Nat) : Nat :=
  murmur3 (bytesOfU32 (l.map (fun v => hash v seed))) seed

/-- `hashValues(value, seed)`: like `hashSequence` but the per-element
hash array is sorted (numerically, typed-array sort) before mixing. -/
def hashValues (l : List JSVal) (seed : Nat) : Nat :=
  murmur3 (bytesOfU32 (sortU32 (l.map (fun v => hash v seed)))) seed

/-- `hashEntries(value, seed)`: each `[key, value]` entry is hashed via
`hashSequence(entry, seed)`, the per-entry hash array is sorted, then
mixed with murmur3. -/
def hashEntries (es : List (JSVal × JSVal)) (seed : Nat) : Nat :=
  murmur3 (bytesOfU32 (sortU32 (es.map (fun e => hashSequence [e.1, e.2] seed)))) seed

/-- `Number.isInteger(value)` on its own: true exactly for the
integer-valued doubles, `-0` included. -/
def numIsInteger : JSNumber → Bool
  | .negZero => true
  | .int _ => true
  | _ => false

/-- Claim C2's guard, following the claim's words: an "integer within
32-bit range", read generously as the union of the signed and unsigned
32-bit ranges, `-2 ^ 31 ≤ n ≤ 2 ^ 32 - 1` (any narrower reading only
moves more integers to the byte-stream side and fails the same way). -/
def numIn32BitRange : JSNumber → Bool
  | .negZero => true
  | .int n => decide (-(2 ^ 31 : Int) ≤ n ∧ n ≤ 2 ^ 32 - 1)
  | _ => false

/-- The routing claim C2 states, written from the claim's words:
integers within 32-bit range go to the integer mixer, every other
number is serialized as its 8-byte little-endian double representation
and fed to the byte-stream mixer. -/
def hashNumberClaimedRoute (v : JSNumber) (seed : Nat) : Nat :=
  if numIsInteger v && numIn32BitRange v then wang (numToUint32 v) seed
  else murmur3 (f64leBytes v) seed

/-- The actual guard of the integer fast path, separated from
`Number.isInteger`: strictly below `0xffffffff`, with no lower
bound. -/
def numBelowU32Max : JSNumber → Bool
  | .negZero => true
  | .int n => decide (n < 4294967295)
  | _ => false

/-- The amended routing for claim C2: an integer-valued double
(including `-0`) strictly below `0xffffffff` — with no lower bound —
goes to `wang` on its low 32 bits; everything else (non-integers,
integers at or above `0xffffffff`, NaN and the infinities) is
serialized as its 8-byte little-endian double representation and fed
to `murmur3`. -/
def hashNumberRoute (v : JSNumber) (seed : Nat) : Nat :=
  if numIsInteger v && numBelowU32Max v then wang (numToUint32 v) seed
  else murmur3 (f64leBytes v) seed

/-- `xsr k` is the xor-shift-right step `x ^ (x >>> k)` shared by the
mixers, abstracted for the injectivity arguments. -/
def xsr (k x : Nat) : Nat := x ^^^ (x >>> k)

/-!  Helper lemmas: arithmetic of the xor-shift and odd-multiplication
steps of the mixers.  -/

theorem u32_lt (n : Nat) : u32 n < 2 ^ 32 := Nat.mod_lt _ (by decide)

theorem u32_id {x : Nat} (hx : x < 2 ^ 32) : u32 x = x := Nat.mod_eq_of_lt hx

theorem shiftRight_lt32 {x : Nat} (k : Nat) (hx : x < 2 ^ 32) : x >>> k < 2 ^ 32 :=
  lt_of_le_of_lt (by rw [Nat.shiftRight_eq_div_pow]; exact Nat.div_le_self _ _) hx

theorem xor_shiftRight_distrib (a b k : Nat) :
    (a ^^^ b) >>> k = (a >>> k) ^^^ (b >>> k) := by
  apply Nat.eq_of_testBit_eq
  intro i
  simp [Nat.testBit_shiftRight, Nat.testBit_xor]

theorem xor_mid_cancel (a b c : Nat) : (a ^^^ b) ^^^ (b ^^^ c) = a ^^^ c := by
  apply Nat.eq_of_testBit_eq
  intro i
  simp only [Nat.testBit_xor]
  generalize a.testBit i = p
  generalize b.testBit i = q
  generalize c.testBit i = r
  revert p q r
  decide

theorem xsr_lt {x : Nat} (k : Nat) (hx : x < 2 ^ 32) : xsr k x < 2 ^ 32 :=
  Nat.xor_lt_two_pow hx (shiftRight_lt32 k hx)

theorem xsr_xsr (k x : Nat) : xsr k (xsr k x) = xsr (k + k) x := by
  unfold xsr
  rw [xor_shiftRight_distrib, ← Nat.shiftRight_add]
  exact xor_mid_cancel x (x >>> k) (x >>> (k + k))

theorem xsr_of_32_le {x : Nat} (k : Nat) (hk : 32 ≤ k) (hx : x < 2 ^ 32) : xsr k x = x := by
  unfold xsr
  have h0 : x >>> k = 0 := by
    rw [Nat.shiftRight_eq_div_pow]
    exact Nat.div_eq_of_lt (lt_of_lt_of_le hx (Nat.pow_le_pow_right (by decide) hk))
  rw [h0, Nat.xor_zero]

theorem xsr16_inj {x y : Nat} (hx : x < 2 ^ 32) (hy : y < 2 ^ 32)
    (h : xsr 16 x = xsr 16 y) : x = y := by
  have h2 := congrArg (xsr 16) h
  rw [xsr_xsr, xsr_xsr] at h2
  rwa [xsr_of_32_le _ (by norm_num) hx, xsr_of_32_le _ (by norm_num) hy] at h2

theorem xsr15_inj {x y : Nat} (hx : x < 2 ^ 32) (hy : y < 2 ^ 32)
    (h : xsr 15 x = xsr 15 y) : x = y := by
  have h2 := congrArg (xsr 15) h
  rw [xsr_xsr, xsr_xsr] at h2
  have h3 := congrArg (xsr (15 + 15)) h2
  rw [xsr_xsr, xsr_xsr] at h3
  rwa [xsr_of_32_le _ (by norm_num) hx, xsr_of_32_le _ (by norm_num) hy] at h3

theorem xsr4_inj {x y : Nat} (hx : x < 2 ^ 32) (hy : y < 2 ^ 32)
    (h : xsr 4 x = xsr 4 y) : x = y := by
  have h2 := congrArg (xsr 4) h
  rw [xsr_xsr, xsr_xsr] at h2
  have h3 := congrArg (xsr (4 + 4)) h2
  rw [xsr_xsr, xsr_xsr] at h3
  exact xsr16_inj hx hy h3

theorem xor_right_cancel {a b t : Nat} (h : a ^^^ t = b ^^^ t) : a = b := by
  have h2 := congrArg (· ^^^ t) h
  simpa [Nat.xor_assoc] using h2

/-- Multiplication by a unit modulo `2 ^ 32` is injective below `2 ^ 32`
(the explicit inverse witness `d` avoids any gcd computation). -/
theorem mul_u32_inj (c d : Nat) (hcd : (d * c) % 2 ^ 32 = 1) {x y : Nat}
    (hx : x < 2 ^ 32) (hy : y < 2 ^ 32) (h : u32 (c * x) = u32 (c * y)) : x = y := by
  unfold u32 at h
  have h1 : c * x ≡ c * y [MOD 2 ^ 32] := h
  have h3 : d * c ≡ 1 [MOD 2 ^ 32] := by
    show (d * c) % 2 ^ 32 = 1 % 2 ^ 32
    rw [hcd]
    decide
  have h4 : x ≡ d * c * x [MOD 2 ^ 32] := by
    have := (h3.mul_right x).symm
    rwa [one_mul] at this
  have h5 : d * c * y ≡ y [MOD 2 ^ 32] := by
    have := h3.mul_right y
    rwa [one_mul] at this
  have h6 : x ≡ y [MOD 2 ^ 32] := by
    refine h4.trans (Nat.ModEq.trans ?_ h5)
    rw [mul_assoc, mul_assoc]
    exact h1.mul_left d
  have h7 : x % 2 ^ 32 = y % 2 ^ 32 := h6
  rwa [Nat.mod_eq_of_lt hx, Nat.mod_eq_of_lt hy] at h7

theorem wstep1_eq_xsr (x : Nat) : wstep1 x = xsr 16 x ^^^ 61 := by
  unfold wstep1 xsr
  rw [Nat.xor_assoc, Nat.xor_comm 61 _, ← Nat.xor_assoc]

theorem wstep1_lt {x : Nat} (hx : x < 2 ^ 32) : wstep1 x < 2 ^ 32 := by
  rw [wstep1_eq_xsr]
  exact Nat.xor_lt_two_pow (xsr_lt 16 hx) (by norm_num)

theorem wstep1_inj {x y : Nat} (hx : x < 2 ^ 32) (hy : y < 2 ^ 32)
    (h : wstep1 x = wstep1 y) : x = y := by
  rw [wstep1_eq_xsr, wstep1_eq_xsr] at h
  exact xsr16_inj hx hy (xor_right_cancel h)

theorem wstep2_eq (x : Nat) : wstep2 x = (9 * x) % 2 ^ 32 := by
  unfold wstep2 u32
  rw [Nat.shiftLeft_eq]
  omega

theorem wstep2_inj {x y : Nat} (hx : x < 2 ^ 32) (hy : y < 2 ^ 32)
    (h : wstep2 x = wstep2 y) : x = y := by
  rw [wstep2_eq, wstep2_eq] at h
  exact mul_u32_inj 9 954437177 (by decide) hx hy h

theorem wstep3_eq_xsr (x : Nat) : wstep3 x = xsr 4 x := rfl

theorem wstep5_eq_xsr (x : Nat) : wstep5 x = xsr 15 x := rfl

theorem wstep4_inj {x y : Nat} (hx : x < 2 ^ 32) (hy : y < 2 ^ 32)
    (h : wstep4 x = wstep4 y) : x = y := by
  unfold wstep4 at h
  rw [mul_comm x _, mul_comm y _] at h
  exact mul_u32_inj 0x27d4eb2d 4218002597 (by decide) hx hy h

theorem wang_steps_inj {z w : Nat} (hz : z < 2 ^ 32) (hw : w < 2 ^ 32)
    (h : wstep5 (wstep4 (wstep3 (wstep2 (wstep1 z)))) =
      wstep5 (wstep4 (wstep3 (wstep2 (wstep1 w))))) : z = w := by
  have hb1z := wstep1_lt hz
  have hb1w := wstep1_lt hw
  have hb2z : wstep2 (wstep1 z) < 2 ^ 32 := by
    rw [wstep2_eq]; exact Nat.mod_lt _ (by decide)
  have hb2w : wstep2 (wstep1 w) < 2 ^ 32 := by
    rw [wstep2_eq]; exact Nat.mod_lt _ (by decide)
  have hb3z : wstep3 (wstep2 (wstep1 z)) < 2 ^ 32 := by
    rw [wstep3_eq_xsr]; exact xsr_lt 4 hb2z
  have hb3w : wstep3 (wstep2 (wstep1 w)) < 2 ^ 32 := by
    rw [wstep3_eq_xsr]; exact xsr_lt 4 hb2w
  have hb4z : wstep4 (wstep3 (wstep2 (wstep1 z))) < 2 ^ 32 := u32_lt _
  have hb4w : wstep4 (wstep3 (wstep2 (wstep1 w))) < 2 ^ 32 := u32_lt _
  rw [wstep5_eq_xsr, wstep5_eq_xsr] at h
  have h4 := xsr15_inj hb4z hb4w h
  have h3 := wstep4_inj hb3z hb3w h4
  rw [wstep3_eq_xsr, wstep3_eq_xsr] at h3
  have h2 := xsr4_inj hb2z hb2w h3
  have h1 := wstep2_inj hb1z hb1w h2
  exact wstep1_inj hz hw h1

/-- Two permuted lists of 32-bit words have the same typed-array sort. -/
theorem sortU32_congr_of_perm {l l₂ : List Nat} (h : l.Perm l₂) :
    sortU32 l = sortU32 l₂ := by
  unfold sortU32
  refine List.eq_of_perm_of_sorted ?_ (List.sorted_insertionSort _ _)
    (List.sorted_insertionSort _ _)
  exact (List.perm_insertionSort _ l).trans (h.trans (List.perm_insertionSort _ l₂).symm)

/-- Sanity anchor: the embedding reproduces the library's own recorded
test vectors for `getSeed` — the empty string seeds to `0`, and
`"Smile my dear!"` seeds to `2021251023`. -/
theorem getSeed_test_vectors :
    getSeed [] = 0
    ∧ getSeed [83, 109, 105, 108, 101, 32, 109, 121, 32, 100, 101, 97, 114, 33]
      = 2021251023 :=
  ⟨rfl, by decide⟩

/-!  Claim theorems.  -/

/-- C1 counterexample: hashNumber gives NaN, +Infinity and -Infinity no
sentinel.  If a fixed 32-bit sentinel `k` existed with
`hashNumber v s = k XOR s` for every 32-bit seed `s`, then
`hashNumber v 1 = hashNumber v 0 XOR 1` would follow (instantiate at
`s = 0` and `s = 1`); computing both sides refutes this for each of the
three special values. -/
theorem hashNumber_specials_no_sentinel :
    hashNumber .nan 1 ≠ hashNumber .nan 0 ^^^ 1
    ∧ hashNumber .posInf 1 ≠ hashNumber .posInf 0 ^^^ 1
    ∧ hashNumber .negInf 1 ≠ hashNumber .negInf 0 ^^^ 1 := by
  refine ⟨by decide, by decide, by decide⟩

/-- C1 amended: NaN, +Infinity and -Infinity take no sentinel path.
Each is serialized as its 8-byte little-endian IEEE-754 double pattern
(NaN as the canonical quiet-NaN pattern) and hashed through the
byte-stream mixer `murmur3` under the seed; at the default seed the
three results are pairwise distinct. -/
theorem hashNumber_specials_via_murmur (s : Nat) :
    hashNumber .nan s = murmur3 (f64leBytes .nan) s
    ∧ hashNumber .posInf s = murmur3 (f64leBytes .posInf) s
    ∧ hashNumber .negInf s = murmur3 (f64leBytes .negInf) s
    ∧ hashNumber .nan defaultSeed ≠ hashNumber .posInf defaultSeed
    ∧ hashNumber .nan defaultSeed ≠ hashNumber .negInf defaultSeed
    ∧ hashNumber .posInf defaultSeed ≠ hashNumber .negInf defaultSeed :=
  ⟨rfl, rfl, rfl, by decide, by decide, by decide⟩

/-- C2 counterexample: `-4294967296` is an integer outside every
32-bit range, so the claimed routing sends it through the serialized
double path, but `hashNumber`'s actual guard `value < 0xffffffff` has
no lower bound and sends it to the integer mixer; the two disagree. -/
theorem hashNumber_routing_counterexample :
    hashNumber (.int (-4294967296)) 0 ≠ hashNumberClaimedRoute (.int (-4294967296)) 0 := by
  decide

/-- C2 amended: `hashNumber` routes by `Number.isInteger(v) &&
v < 0xffffffff` — integer-valued doubles (including `-0`) strictly
below `0xffffffff`, with no lower bound, go to the integer mixer `wang`
on their value reduced modulo `2 ^ 32`; every other number (non-integer,
integer at or above `0xffffffff`, NaN, ±Infinity) is serialized as its
8-byte little-endian IEEE-754 double representation and hashed with the
byte-stream mixer `murmur3` under the same seed. -/
theorem hashNumber_routing (v : JSNumber) (s : Nat) :
    hashNumber v s = hashNumberRoute v s := by
  cases v with
  | nan => rfl
  | posInf => rfl
  | negInf => rfl
  | negZero => rfl
  | nonInt bits => rfl
  | int n =>
      unfold hashNumber hashNumberRoute
      by_cases hlt : n < 4294967295
      · simp only [numIsFast, numIsInteger, numBelowU32Max, hlt, decide_eq_true_eq,
          Bool.true_and, if_true]
        by_cases h0 : n = 0
        · subst h0
          simp [numIsZero, numToUint32]
        · simp [numIsZero, h0]
      · simp [numIsFast, numIsInteger, numBelowU32Max, hlt]

/-- C3: for every fixed seed, the integer avalanche finalizer `wang`
(whose right shifts are all logical `>>>` shifts) is injective — hence
bijective — on 32-bit words: equal outputs on inputs below `2 ^ 32`
force equal inputs. -/
theorem wang_int_mixer_bijective (s x y : Nat) (hx : x < 2 ^ 32) (hy : y < 2 ^ 32)
    (h : wang x s = wang y s) : x = y := by
  unfold wang at h
  rw [u32_id hx, u32_id hy] at h
  have hb5 : ∀ z : Nat, wstep5 (wstep4 (wstep3 (wstep2 (wstep1 z)))) < 2 ^ 32 := by
    intro z
    rw [wstep5_eq_xsr]
    exact xsr_lt 15 (u32_lt _)
  have hb0x : x ^^^ u32 s < 2 ^ 32 := Nat.xor_lt_two_pow hx (u32_lt s)
  have hb0y : y ^^^ u32 s < 2 ^ 32 := Nat.xor_lt_two_pow hy (u32_lt s)
  rw [u32_id (hb5 _), u32_id (hb5 _)] at h
  exact xor_right_cancel (wang_steps_inj hb0x hb0y h)

/-- Witness for C3: instantiation at seed 0 and input 5. -/
theorem wang_int_mixer_bijective_witness : (5 : Nat) = 5 :=
  wang_int_mixer_bijective 0 5 5 (by decide) (by decide) rfl

/-- C4 counterexample: the default seed of this variant is `0`, so the
claim that it is a non-zero constant is false. -/
theorem defaultSeed_not_nonzero : ¬ defaultSeed ≠ 0 := by decide

/-- C4 amended: the default seed — the value every exported hash
function uses when the caller passes no seed — is the fixed 32-bit
constant `0`; consistently, `getSeed('')` (which hashes the empty label
with that seed) also returns `0`, exactly as the library's own test
expects. -/
theorem defaultSeed_is_zero :
    defaultSeed = 0 ∧ defaultSeed < 2 ^ 32 ∧ getSeed [] = defaultSeed :=
  ⟨rfl, by decide, rfl⟩

/-- C5: the set-like hash `hashValues` is invariant under any
permutation of the element list, for every seed: the per-element hashes
are sorted numerically before mixing. -/
theorem hashValues_permutation_invariant (s : Nat) (l l₂ : List JSVal)
    (h : l.Perm l₂) : hashValues l s = hashValues l₂ s := by
  unfold hashValues
  rw [sortU32_congr_of_perm (h.map _)]

/-- Witness for C5: `{1, 2}` against `{2, 1}` at seed 0. -/
theorem hashValues_permutation_invariant_witness :
    hashValues [.num (.int 1), .num (.int 2)] 0
      = hashValues [.num (.int 2), .num (.int 1)] 0 :=
  hashValues_permutation_invariant 0 _ _ (List.Perm.swap _ _ _)

/-- C6: the map-like hash `hashEntries` is invariant under any
permutation of its entry list, for every seed; the pairing of key with
value inside an entry still matters (swapping keys with values changes
the hash at the default seed); and in particular the dispatcher hash of
a plain structural object is invariant under key order:
`hash({a:1, b:2}) = hash({b:2, a:1})`. -/
theorem hashEntries_permutation_invariant :
    (∀ (s : Nat) (es es₂ : List (JSVal × JSVal)), es.Perm es₂ →
      hashEntries es s = hashEntries es₂ s)
    ∧ hashEntries [(.str [0x61], .num (.int 1)), (.str [0x62], .num (.int 2))] defaultSeed
      ≠ hashEntries [(.num (.int 1), .str [0x61]), (.num (.int 2), .str [0x62])] defaultSeed
    ∧ hash (.obj [([0x61], .num (.int 1)), ([0x62], .num (.int 2))]) defaultSeed
      = hash (.obj [([0x62], .num (.int 2)), ([0x61], .num (.int 1))]) defaultSeed := by
  refine ⟨?_, by decide, by decide⟩
  intro s es es₂ h
  unfold hashEntries
  rw [sortU32_congr_of_perm (h.map _)]

/-- Witness for C6: two entries swapped, at seed 0. -/
theorem hashEntries_permutation_invariant_witness :
    hashEntries [(.str [0x61], .num (.int 1)), (.str [0x62], .num (.int 2))] 0
      = hashEntries [(.str [0x62], .num (.int 2)), (.str [0x61], .num (.int 1))] 0 :=
  hashEntries_permutation_invariant.1 0 _ _ (List.Perm.swap _ _ _)

/-- C7: the ordered-sequence hash is order sensitive: with the default
seed, the dispatcher hash of the array `[1, 2, 3]` differs from that of
`[3, 1, 2]`. -/
theorem hash_sequence_order_sensitive :
    hash (.arr [.num (.int 1), .num (.int 2), .num (.int 3)]) defaultSeed
      ≠ hash (.arr [.num (.int 3), .num (.int 1), .num (.int 2)]) defaultSeed := by
  decide

/-- C8: two strings with the same NFD normal form hash identically
under `hashString` for every seed; in particular the precomposed
"ñ" (U+00F1) and its decomposition "n" + combining tilde
(U+006E U+0303) agree for every seed. -/
theorem hashString_nfd_equivalence :
    (∀ (a b : List Nat) (s : Nat), nfd a = nfd b → hashString a s = hashString b s)
    ∧ ∀ s : Nat, hashString [0xf1] s = hashString [0x6e, 0x303] s := by
  constructor
  · intro a b s h
    unfold hashString
    rw [h]
  · intro s
    rfl

/-- Witness for C8: the ñ pair at seed 7. -/
theorem hashString_nfd_equivalence_witness :
    hashString [0xf1] 7 = hashString [0x6e, 0x303] 7 :=
  hashString_nfd_equivalence.1 [0xf1] [0x6e, 0x303] 7 (by decide)

/-- C9: positive and negative zero hash identically under `hashNumber`
for every seed — the `value === 0` test collapses `-0` to `0` before
the integer mixer runs. -/
theorem hashNumber_signed_zero (s : Nat) :
    hashNumber .negZero s = hashNumber (.int 0) s := by
  simp [hashNumber, numIsFast, numIsZero]

/-- C10: any two integers strictly below `0xffffffff` and congruent
modulo `2 ^ 32` hash identically under `hashNumber`, because the
integer-mixer path truncates its input to the low 32 bits; e.g.
`hashNumber(-4294967296, s) = hashNumber(0, s)`. -/
theorem hashNumber_low32_collision (a b : Int) (s : Nat)
    (ha : a < 4294967295) (hb : b < 4294967295)
    (hab : a % (2 ^ 32 : Int) = b % (2 ^ 32 : Int)) :
    hashNumber (.int a) s = hashNumber (.int b) s := by
  have key : ∀ n : Int, n < 4294967295 →
      hashNumber (.int n) s = wang ((n % (2 ^ 32 : Int)).toNat) s := by
    intro n hn
    unfold hashNumber
    have hfast : numIsFast (.int n) = true := by simp [numIsFast, hn]
    rw [hfast]
    by_cases h0 : n = 0
    · subst h0
      simp [numIsZero, numToUint32]
    · simp [numIsZero, h0, numToUint32]
  rw [key a ha, key b hb, hab]

/-- Witness for C10: `-4294967296` against `0` at seed 7. -/
theorem hashNumber_low32_collision_witness :
    hashNumber (.int (-4294967296)) 7 = hashNumber (.int 0) 7 :=
  hashNumber_low32_collision (-4294967296) 0 7 (by decide) (by decide) (by decide)

end Cruxhash
